import Mathlib

/-
Shallow embedding of `src/metrics.py` (polars-based financial metrics).

A polars `Float64` column is modelled as a list of `Option ℚ` cells, where
`none` models a polars null.  The `date` column is modelled separately, since
the code always selects it by name and never does arithmetic on it.  Errors
raised by the python code (polars `ColumnNotFoundError`, `DuplicateError`,
`ValueError` for unsupported aggregation types, shape errors from
`DataFrame.item()`, and `TypeError` from arithmetic on `None`) are modelled
with an explicit `Except` error type.
-/

set_option autoImplicit false
set_option maxHeartbeats 1000000

namespace PolarsStats

/-- A calendar date, as stored in the polars `date` column. -/
structure Date where
  year : Int
  month : Nat
  day : Nat
deriving DecidableEq, Repr

/-- One cell of a `Float64` column; `none` models a polars null. -/
abbrev Cell := Option ℚ

/-- A `Float64` column of a polars frame. -/
abbrev Col := List Cell

/-- A polars frame as used by `Metrics`: one `date` column plus the
`Float64` columns with their names, in frame order. -/
structure Frame where
  dates : List Date
  floatCols : List (String × Col)
deriving DecidableEq, Repr

/-- The `AggregationType` enumeration of the source. -/
inductive AggregationType where
  | DAY
  | WEEKLY
  | MONTHLY
  | QUARTERLY
  | YEARLY
deriving DecidableEq, Repr

/-- Errors raised by the python code, by kind. -/
inductive MetricsError where
  | columnNotFound (name : String)
  | duplicateColumn (name : String)
  | unsupportedAggregation (t : AggregationType)
  | shapeError
  | nullArithmetic
  | undefinedResult
deriving DecidableEq, Repr

/-- Result of `DataFrame.group_by`: the grouped frame together with the
group key of each row (year, and month when grouping monthly). -/
structure GroupedFrame where
  frame : Frame
  keys : List (Int × Option Nat)
deriving DecidableEq, Repr

/-- Look a column up by name, as polars `select` / `get_column` do. -/
def lookupCol (name : String) (cols : List (String × Col)) : Option Col :=
  (cols.find? (fun c => c.fst == name)).map Prod.snd

/-- The polars `shift(1)` of a column: a null first, then all but the last. -/
def shift1 (xs : Col) : Col := (none :: xs).dropLast

/-- Elementwise binary arithmetic on cells: null if either side is null. -/
def cellBin (f : ℚ → ℚ → ℚ) : Cell → Cell → Cell
  | some a, some b => some (f a b)
  | _, _ => none

/-- Elementwise binary arithmetic on two columns. -/
def colZip (f : ℚ → ℚ → ℚ) (xs ys : Col) : Col := List.zipWith (cellBin f) xs ys

/-- Elementwise unary arithmetic on a column: nulls stay null. -/
def colMap (f : ℚ → ℚ) (xs : Col) : Col := xs.map (Option.map f)

/-- The polars `sum()` aggregation: nulls are skipped, the empty sum is 0. -/
def colSum (xs : Col) : ℚ := (xs.filterMap id).sum

/-- The polars `product()` aggregation: nulls are skipped, the empty product is 1. -/
def colProduct (xs : Col) : ℚ := (xs.filterMap id).prod

/-- One step of the polars `max()` aggregation. -/
def maxStep (acc : Option ℚ) (x : ℚ) : Option ℚ :=
  match acc with
  | none => some x
  | some a => some (max a x)

/-- The polars `max()` aggregation: nulls are skipped, all-null gives null. -/
def colMax (xs : Col) : Option ℚ :=
  (xs.filterMap id).foldl maxStep none

/-- The polars `cum_prod()`: nulls stay null in place and are skipped by the
running accumulator. -/
def cumProdAux (acc : ℚ) : Col → Col
  | [] => []
  | none :: xs => none :: cumProdAux acc xs
  | some x :: xs => some (acc * x) :: cumProdAux (acc * x) xs

/-- The polars `cum_prod()` of a column. -/
def cum_prod (xs : Col) : Col := cumProdAux 1 xs

/-- One step of the polars `cum_max()` accumulator. -/
def maxVal (acc : Option ℚ) (x : ℚ) : ℚ :=
  match acc with
  | none => x
  | some a => max a x

/-- The polars `cum_max()`: nulls stay null in place and are skipped by the
running accumulator. -/
def cumMaxAux (acc : Option ℚ) : Col → Col
  | [] => []
  | none :: xs => none :: cumMaxAux acc xs
  | some x :: xs => some (maxVal acc x) :: cumMaxAux (some (maxVal acc x)) xs

/-- The polars `cum_max()` of a column. -/
def cum_max (xs : Col) : Col := cumMaxAux none xs

/-- The elementwise mask `col < q`, null where the column is null. -/
def colLtMask (xs : Col) (q : ℚ) : List (Option Bool) :=
  xs.map (fun c => c.map (fun r => decide (r < q)))

/-- The polars `Expr.filter`: keep the cells whose mask is `true`
(null masks drop the row, as in polars). -/
def colFilter (xs : Col) (mask : List (Option Bool)) : Col :=
  (List.zip xs mask).filterMap (fun p =>
    match p.snd with
    | some true => some p.fst
    | _ => none)

/-- The `annualization_faactor` method of the source (name kept, typo and all). -/
def annualization_faactor : AggregationType → ℚ
  | .DAY => 252
  | .WEEKLY => 52
  | .MONTHLY => 12
  | .QUARTERLY => 4
  | .YEARLY => 1

/-- The `return` column built by `Metrics.simple_returns`:
`close / close.shift(1) - 1`, elementwise. -/
def returnCol (cs : Col) : Col :=
  colMap (fun r => r - 1) (colZip (fun a b => a / b) cs (shift1 cs))

/-- `Metrics.simple_returns`: select the `Float64` columns, append the
`return` column, and re-attach the `date` column.  Fails when the `close`
column is missing (polars `ColumnNotFoundError`) or when a `Float64`
column named `return` already exists (polars `DuplicateError`). -/
def simple_returns (df : Frame) : Except MetricsError Frame :=
  match lookupCol "close" df.floatCols with
  | none => .error (.columnNotFound "close")
  | some cs =>
    if (df.floatCols.map Prod.fst).contains "return" then
      .error (.duplicateColumn "return")
    else
      .ok ⟨df.dates, df.floatCols ++ [("return", returnCol cs)]⟩

/-- The simple returns of a plain list of closes, written directly:
entry `t` (counting from the second row) is `close[t] / close[t-1] - 1`. -/
def specReturns (closes : List ℚ) : List ℚ :=
  List.zipWith (fun cur prev => cur / prev - 1) closes.tail closes

/-- A minimal price table: a `date` column and a non-null `close` column. -/
def mkPriceFrame (dates : List Date) (closes : List ℚ) : Frame :=
  ⟨dates, [("close", closes.map some)]⟩

theorem shift1_length (xs : Col) : (shift1 xs).length = xs.length := by
  simp [shift1]

theorem returnCol_length (cs : Col) : (returnCol cs).length = cs.length := by
  simp [returnCol, colMap, colZip, shift1_length]

theorem map_some_dropLast (l : List ℚ) :
    (l.map some).dropLast = l.dropLast.map some := by
  induction l with
  | nil => rfl
  | cons a t ih =>
    cases t with
    | nil => rfl
    | cons b t' => simp [List.dropLast, ih]

theorem zipWith_dropLast_right {α β γ : Type} (g : α → β → γ) :
    ∀ (as : List α) (bs : List β), as.length < bs.length →
      List.zipWith g as bs.dropLast = List.zipWith g as bs := by
  intro as
  induction as with
  | nil => intro bs _; simp
  | cons a as' ih =>
    intro bs hlt
    match bs with
    | [] => simp at hlt
    | [b] =>
      simp at hlt
    | b :: b' :: bs' =>
      simp only [List.dropLast, List.zipWith_cons_cons]
      rw [ih (b' :: bs')]
      simp at hlt ⊢
      omega

theorem zipWith_cellBin_map (f : ℚ → ℚ → ℚ) (as bs : List ℚ) :
    List.zipWith (cellBin f) (as.map some) (bs.map some)
      = (List.zipWith f as bs).map some := by
  rw [List.zipWith_map]
  show List.zipWith (fun a b => some (f a b)) as bs = (List.zipWith f as bs).map some
  rw [List.map_zipWith]

theorem returnCol_cons (c : ℚ) (rest : List ℚ) :
    returnCol ((c :: rest).map some)
      = none :: (specReturns (c :: rest)).map some := by
  show (List.zipWith (cellBin (fun a b => a / b)) (some c :: rest.map some)
      ((none :: some c :: rest.map some).dropLast)).map (Option.map (fun r => r - 1))
      = none :: (specReturns (c :: rest)).map some
  rw [show ((none :: some c :: rest.map some).dropLast : Col)
      = none :: ((some c :: rest.map some).dropLast) from rfl]
  rw [List.zipWith_cons_cons]
  rw [show cellBin (fun a b => a / b) (some c) none = none from rfl]
  rw [zipWith_dropLast_right (cellBin (fun a b => a / b)) (rest.map some)
      (some c :: rest.map some) (by simp)]
  rw [show (some c :: rest.map some : Col) = (c :: rest).map some from rfl]
  rw [zipWith_cellBin_map]
  simp only [List.map_cons, Option.map_none', List.map_map]
  refine congrArg (fun l => (none : Cell) :: l) ?_
  simp [specReturns, List.map_zipWith, Function.comp]

theorem returnCol_nil : returnCol (([] : List ℚ).map some) = [] := rfl

theorem filterMap_id_map_some (l : List ℚ) :
    ((l.map some).filterMap id : List ℚ) = l := by
  induction l with
  | nil => rfl
  | cons a t ih => simp [List.filterMap_cons, ih]

theorem returnCol_filterMap (closes : List ℚ) :
    ((returnCol (closes.map some)).filterMap id : List ℚ) = specReturns closes := by
  cases closes with
  | nil => rfl
  | cons c rest =>
    rw [returnCol_cons]
    simp [List.filterMap_cons, filterMap_id_map_some]

theorem getElem?_zipWith {α β γ : Type} (f : α → β → γ) :
    ∀ (as : List α) (bs : List β) (i : ℕ),
      (List.zipWith f as bs)[i]? = (as[i]?).bind (fun a => (bs[i]?).map (f a)) := by
  intro as
  induction as with
  | nil => intro bs i; simp
  | cons a as' ih =>
    intro bs i
    cases bs with
    | nil => simp
    | cons b bs' =>
      cases i with
      | zero => simp
      | succ j => simpa using ih bs' j

theorem find?_name_eq_none {cols : List (String × Col)} {name : String}
    (h : (cols.map Prod.fst).contains name = false) :
    cols.find? (fun c => c.fst == name) = none := by
  rw [List.find?_eq_none]
  intro c hc hbeq
  have hmem : c.fst ∈ cols.map Prod.fst := List.mem_map_of_mem _ hc
  have heq : c.fst = name := eq_of_beq hbeq
  simp only [List.contains_eq_any_beq] at h
  have : (cols.map Prod.fst).any (fun x => name == x) = true := by
    refine List.any_eq_true.mpr ⟨c.fst, hmem, ?_⟩
    simp [heq]
  rw [this] at h
  cases h

theorem lookupCol_append {cols extra : List (String × Col)} {name : String}
    (h : (cols.map Prod.fst).contains name = false) :
    lookupCol name (cols ++ extra) = lookupCol name extra := by
  simp [lookupCol, List.find?_append, find?_name_eq_none h]

theorem lookupCol_append_left {cols extra : List (String × Col)} {name : String} {col : Col}
    (h : lookupCol name cols = some col) :
    lookupCol name (cols ++ extra) = some col := by
  unfold lookupCol at h ⊢
  cases hf : cols.find? (fun c => c.fst == name) with
  | none => rw [hf] at h; simp at h
  | some pr =>
    rw [hf] at h
    rw [List.find?_append, hf]
    simpa using h

theorem simple_returns_eq_ok {df : Frame} {cs : Col}
    (hclose : lookupCol "close" df.floatCols = some cs)
    (hnoret : (df.floatCols.map Prod.fst).contains "return" = false) :
    simple_returns df = .ok ⟨df.dates, df.floatCols ++ [("return", returnCol cs)]⟩ := by
  unfold simple_returns
  rw [hclose, hnoret]
  simp

/-- Shape required of `simple_returns` by the spec: same length as the input,
null first return, and `close[t] / close[t-1] - 1` at every later row. -/
def SimpleReturnsOk (df : Frame) (closes : List ℚ) : Prop :=
  ∃ out ret, simple_returns df = .ok out ∧ out.dates = df.dates ∧
    lookupCol "return" out.floatCols = some ret ∧
    ret.length = df.dates.length ∧
    (0 < closes.length → ret[0]? = some none) ∧
    (∀ t : ℕ, (ht : t < closes.length) → 1 ≤ t →
      ret[t]? = some (some (closes[t] / closes[t - 1] - 1)))

/-- C1: on a price table whose `close` column is numeric (and which does not
already use the reserved output name `return`), `simple_returns` produces a
series of the input's length whose first return is null and whose row `t`
holds `close[t] / close[t-1] - 1`. -/
theorem simple_returns_spec (df : Frame) (closes : List ℚ)
    (hclose : lookupCol "close" df.floatCols = some (closes.map some))
    (hnoret : (df.floatCols.map Prod.fst).contains "return" = false)
    (hlen : closes.length = df.dates.length) :
    SimpleReturnsOk df closes := by
  refine ⟨_, returnCol (closes.map some), simple_returns_eq_ok hclose hnoret, rfl, ?_, ?_, ?_, ?_⟩
  · rw [lookupCol_append hnoret]
    rfl
  · rw [returnCol_length]
    simpa using hlen
  · intro hpos
    match closes, hpos with
    | c :: rest, _ => rw [returnCol_cons]; simp
  · intro t ht h1
    obtain ⟨k, rfl⟩ : ∃ k, t = k + 1 := ⟨t - 1, by omega⟩
    match closes, ht with
    | c :: rest, ht =>
      rw [returnCol_cons]
      rw [List.getElem?_cons_succ, List.getElem?_map]
      have hk : k < rest.length := by simpa using ht
      have hspec : (specReturns (c :: rest))[k]? = some ((c :: rest)[k + 1] / (c :: rest)[k] - 1) := by
        unfold specReturns
        rw [getElem?_zipWith]
        simp only [List.tail_cons]
        rw [List.getElem?_eq_getElem hk, List.getElem?_eq_getElem (by simp; omega : k < (c :: rest).length)]
        simp [List.getElem_cons_succ]
      rw [hspec]
      simp

/-- Frame effect of `simple_returns`: the output keeps the `date` column and
every input `Float64` column unchanged, and appends the `return` column. -/
def FramePassThrough (df : Frame) (cs : Col) : Prop :=
  ∃ out, simple_returns df = .ok out ∧ out.dates = df.dates ∧
    out.floatCols = df.floatCols ++ [("return", returnCol cs)] ∧
    (∀ name col, lookupCol name df.floatCols = some col →
      lookupCol name out.floatCols = some col) ∧
    lookupCol "close" out.floatCols = some cs ∧
    lookupCol "return" out.floatCols = some (returnCol cs)

/-- C10: `simple_returns` passes every `Float64` column of the input through
unchanged, row for row, alongside the `date` and new `return` columns. -/
theorem simple_returns_passthrough (df : Frame) (cs : Col)
    (hclose : lookupCol "close" df.floatCols = some cs)
    (hnoret : (df.floatCols.map Prod.fst).contains "return" = false) :
    FramePassThrough df cs := by
  refine ⟨_, simple_returns_eq_ok hclose hnoret, rfl, rfl, ?_, ?_, ?_⟩
  · intro name col h
    exact lookupCol_append_left h
  · exact lookupCol_append_left hclose
  · rw [lookupCol_append hnoret]
    rfl

/-- Sample dates for concrete witnesses. -/
def d1 : Date := ⟨2024, 1, 2⟩

def d2 : Date := ⟨2024, 1, 3⟩

def d3 : Date := ⟨2024, 1, 4⟩

/-- Concrete three-row price table for the C1 witness. -/
def dfC1 : Frame := ⟨[d1, d2, d3], [("close", [some 100, some 110, some 121])]⟩

theorem simple_returns_spec_witness :
    lookupCol "close" dfC1.floatCols = some (([100, 110, 121] : List ℚ).map some) ∧
    (dfC1.floatCols.map Prod.fst).contains "return" = false ∧
    ([100, 110, 121] : List ℚ).length = dfC1.dates.length ∧
    SimpleReturnsOk dfC1 [100, 110, 121] :=
  ⟨rfl, rfl, rfl, simple_returns_spec dfC1 [100, 110, 121] rfl rfl rfl⟩

/-- Concrete price table with an extra `Float64` column for the C10 witness. -/
def dfC10 : Frame :=
  ⟨[d1, d2], [("close", [some 1, some 2]), ("volume", [some 10, some 20])]⟩

theorem simple_returns_passthrough_witness :
    lookupCol "close" dfC10.floatCols = some [some 1, some 2] ∧
    (dfC10.floatCols.map Prod.fst).contains "return" = false ∧
    FramePassThrough dfC10 [some 1, some 2] :=
  ⟨rfl, rfl, simple_returns_passthrough dfC10 [some 1, some 2] rfl rfl⟩

/-- `Metrics.cumulative_returns`: select `date`, `return`, and the running
product `(1 + return).cum_prod()` as `cumulative_return`. -/
def cumulative_returns (sr : Frame) : Except MetricsError Frame :=
  match lookupCol "return" sr.floatCols with
  | none => .error (.columnNotFound "return")
  | some rs =>
    .ok ⟨sr.dates, [("return", rs), ("cumulative_return", cum_prod (colMap (fun r => 1 + r) rs))]⟩

theorem cumProdAux_length : ∀ (xs : Col) (acc : ℚ), (cumProdAux acc xs).length = xs.length := by
  intro xs
  induction xs with
  | nil => intro acc; rfl
  | cons c t ih =>
    intro acc
    cases c <;> simp [cumProdAux, ih]

theorem cumProdAux_getElem? :
    ∀ (xs : Col) (acc : ℚ) (i : ℕ),
      (cumProdAux acc xs)[i]? =
        (xs[i]?).map (Option.map (fun _ => acc * ((xs.take (i + 1)).filterMap id).prod)) := by
  intro xs
  induction xs with
  | nil => intro acc i; simp [cumProdAux]
  | cons c t ih =>
    intro acc i
    cases c with
    | none =>
      cases i with
      | zero => simp [cumProdAux]
      | succ j =>
        simp only [cumProdAux, List.getElem?_cons_succ, List.take_succ_cons,
          List.filterMap_cons]
        exact ih acc j
    | some x =>
      cases i with
      | zero => simp [cumProdAux, List.filterMap_cons]
      | succ j =>
        have h1 : ((some x :: t.take (j + 1)).filterMap id : List ℚ)
            = x :: (t.take (j + 1)).filterMap id := by simp
        simp only [cumProdAux, List.getElem?_cons_succ]
        rw [ih (acc * x) j]
        simp only [List.take_succ_cons, h1, List.prod_cons, mul_assoc]

theorem filterMap_id_colMap (f : ℚ → ℚ) (l : Col) :
    ((colMap f l).filterMap id : List ℚ) = (l.filterMap id).map f := by
  unfold colMap
  rw [List.filterMap_map]
  simp only [Function.id_comp]
  induction l with
  | nil => rfl
  | cons c t ih =>
    cases c <;> simp [List.filterMap_cons, ih]

/-- Shape required of `cumulative_returns` by the spec: same length, same
order, and each row holds the running product of `(1 + return)` over the
rows so far (null rows stay null, as in polars). -/
def CumulativeReturnsOk (sr : Frame) (rs : Col) : Prop :=
  ∃ out cc, cumulative_returns sr = .ok out ∧ out.dates = sr.dates ∧
    lookupCol "return" out.floatCols = some rs ∧
    lookupCol "cumulative_return" out.floatCols = some cc ∧
    cc.length = rs.length ∧
    (∀ i : ℕ, (hi : i < rs.length) →
      cc[i]? = some ((rs[i]).map
        (fun _ => (((rs.take (i + 1)).filterMap id).map (fun r => 1 + r)).prod)))

/-- C2: `cumulative_returns` returns the running product of `(1 + return)`
across the rows in order, preserving the row order and the length of the
input return series. -/
theorem cumulative_returns_spec (sr : Frame) (rs : Col)
    (hrs : lookupCol "return" sr.floatCols = some rs) :
    CumulativeReturnsOk sr rs := by
  refine ⟨⟨sr.dates, [("return", rs),
      ("cumulative_return", cum_prod (colMap (fun r => 1 + r) rs))]⟩,
    cum_prod (colMap (fun r => 1 + r) rs), ?_, rfl, ?_, ?_, ?_, ?_⟩
  · unfold cumulative_returns
    rw [hrs]
  · rfl
  · rfl
  · simp [cum_prod, cumProdAux_length, colMap]
  · intro i hi
    unfold cum_prod
    rw [cumProdAux_getElem?]
    have htake : (colMap (fun r => 1 + r) rs).take (i + 1)
        = colMap (fun r => 1 + r) (rs.take (i + 1)) := by
      simp [colMap, List.map_take]
    rw [htake, filterMap_id_colMap]
    unfold colMap
    rw [List.getElem?_map, List.getElem?_eq_getElem hi]
    simp only [Option.map_map, Option.map_some', one_mul]
    rfl

/-- Concrete return series for the C2 witness. -/
def srC2 : Frame := ⟨[d1, d2, d3], [("return", [none, some (1/10), some (1/10)])]⟩

theorem cumulative_returns_spec_witness :
    lookupCol "return" srC2.floatCols = some [none, some (1/10), some (1/10)] ∧
    CumulativeReturnsOk srC2 [none, some (1/10), some (1/10)] :=
  ⟨rfl, cumulative_returns_spec srC2 [none, some (1/10), some (1/10)] rfl⟩

/-- The frame built by the `select` inside `Metrics.cumulative_return_final`:
its single column is named `cumulative_return_final`. -/
def cumulative_return_final_select (cs : Col) : List (String × Col) :=
  [("cumulative_return_final", [some (colProduct (colMap (fun x => 1 + x) cs))])]

/-- `Metrics.cumulative_return_final`: computes the product of
`(1 + cumulative_return)` under the alias `cumulative_return_final`, then
fetches `get_column("cumulative_return")` from that one-column result. -/
def cumulative_return_final (cr : Frame) : Except MetricsError ℚ :=
  match lookupCol "cumulative_return" cr.floatCols with
  | none => .error (.columnNotFound "cumulative_return")
  | some cs =>
    match lookupCol "cumulative_return" (cumulative_return_final_select cs) with
    | none => .error (.columnNotFound "cumulative_return")
    | some out =>
      match out[0]? with
      | some (some x) => .ok x
      | _ => .error .nullArithmetic

/-- C3: `cumulative_return_final` always raises `ColumnNotFoundError`: the
product of `(1 + cumulative_return)` is computed under the alias
`cumulative_return_final`, but the code then fetches the non-existent column
`cumulative_return` from that result. -/
theorem cumulative_return_final_raises (cr : Frame) :
    cumulative_return_final cr = .error (.columnNotFound "cumulative_return") ∧
    (∀ cs, lookupCol "cumulative_return" cr.floatCols = some cs →
      lookupCol "cumulative_return_final" (cumulative_return_final_select cs)
        = some [some (colProduct (colMap (fun x => 1 + x) cs))]) := by
  constructor
  · unfold cumulative_return_final
    cases h : lookupCol "cumulative_return" cr.floatCols with
    | none => rfl
    | some cs => rfl
  · intro cs _
    rfl

/-- Concrete cumulative-return frame for the C3 witness. -/
def crC3 : Frame := ⟨[d1, d2], [("cumulative_return", [none, some 1])]⟩

theorem cumulative_return_final_raises_witness :
    cumulative_return_final crC3 = .error (.columnNotFound "cumulative_return") ∧
    lookupCol "cumulative_return_final" (cumulative_return_final_select [none, some 1])
      = some [some (colProduct (colMap (fun x => 1 + x) [none, some 1]))] :=
  ⟨(cumulative_return_final_raises crC3).1,
    (cumulative_return_final_raises crC3).2 [none, some 1] rfl⟩

/-- `Metrics.aggregate_returns`: compute `simple_returns`, then bucket by
calendar period.  Only monthly (`"%Y-%m"` keys) and yearly (`"%Y"` keys)
have a bucketing rule; every other period raises the unsupported-aggregation
error of the source's `raise ValueError(...)` branch. -/
def aggregate_returns (df : Frame) (convert_to : AggregationType) :
    Except MetricsError GroupedFrame :=
  (simple_returns df).bind fun returns =>
    match convert_to with
    | .MONTHLY => .ok ⟨returns, returns.dates.map (fun d => (d.year, some d.month))⟩
    | .YEARLY => .ok ⟨returns, returns.dates.map (fun d => (d.year, none))⟩
    | _ => .error (.unsupportedAggregation convert_to)

/-- C7: on a well-formed price table, `aggregate_returns` fails with the
unsupported-aggregation error for every period outside {monthly, yearly}
(in particular for weekly and quarterly). -/
theorem aggregate_returns_unsupported (df : Frame) (cs : Col) (p : AggregationType)
    (hclose : lookupCol "close" df.floatCols = some cs)
    (hnoret : (df.floatCols.map Prod.fst).contains "return" = false)
    (hp1 : p ≠ .MONTHLY) (hp2 : p ≠ .YEARLY) :
    aggregate_returns df p = .error (.unsupportedAggregation p) := by
  unfold aggregate_returns
  rw [simple_returns_eq_ok hclose hnoret]
  cases p with
  | MONTHLY => exact absurd rfl hp1
  | YEARLY => exact absurd rfl hp2
  | DAY => rfl
  | WEEKLY => rfl
  | QUARTERLY => rfl

/-- Concrete price table for the C7 witness. -/
def dfC7 : Frame := ⟨[d1, d2], [("close", [some 100, some 90])]⟩

theorem aggregate_returns_unsupported_witness :
    lookupCol "close" dfC7.floatCols = some [some 100, some 90] ∧
    AggregationType.WEEKLY ≠ AggregationType.MONTHLY ∧
    AggregationType.WEEKLY ≠ AggregationType.YEARLY ∧
    aggregate_returns dfC7 .WEEKLY = .error (.unsupportedAggregation .WEEKLY) ∧
    aggregate_returns dfC7 .QUARTERLY = .error (.unsupportedAggregation .QUARTERLY) :=
  ⟨rfl, by decide, by decide,
    aggregate_returns_unsupported dfC7 [some 100, some 90] .WEEKLY rfl rfl
      (by decide) (by decide),
    aggregate_returns_unsupported dfC7 [some 100, some 90] .QUARTERLY rfl rfl
      (by decide) (by decide)⟩

/-- The per-row drawdown series of `Metrics.max_drawdown`:
`(cumulative_return / cum_max(cumulative_return)) - 1`. -/
def drawdownSeries (rs : Col) : Col :=
  colZip (fun c m => c / m - 1) (cum_prod (colMap (fun r => 1 + r) rs))
    (cum_max (cum_prod (colMap (fun r => 1 + r) rs)))

/-- `Metrics.max_drawdown`: cumulative returns, running maximum, per-row
`(cumulative / running_max) - 1`, and the polars `max()` of that series
(`.item()` gives `None`, modelled as `none`, when every row is null). -/
def max_drawdown (sr : Frame) : Except MetricsError (Option ℚ) :=
  (cumulative_returns sr).bind fun cr =>
    match lookupCol "cumulative_return" cr.floatCols with
    | none => .error (.columnNotFound "cumulative_return")
    | some cs =>
      .ok (colMax (colZip (fun c m => c / m - 1) cs (cum_max cs)))

theorem drawdown_cells_nonpos :
    ∀ (fs : Col) (p : ℚ) (m : Option ℚ), 0 < p → (∀ a, m = some a → 0 < a) →
      (∀ cell ∈ fs, ∀ f : ℚ, cell = some f → 0 < f) →
      ∀ d : ℚ, some d ∈ colZip (fun c mm => c / mm - 1) (cumProdAux p fs)
          (cumMaxAux m (cumProdAux p fs)) → d ≤ 0 := by
  intro fs
  induction fs with
  | nil =>
    intro p m _ _ _ d hd
    simp [colZip, cumProdAux, cumMaxAux] at hd
  | cons cell t ih =>
    intro p m hp hm hf d hd
    cases cell with
    | none =>
      simp only [cumProdAux, cumMaxAux, colZip, List.zipWith_cons_cons, cellBin] at hd
      rcases List.mem_cons.mp hd with h | h
      · cases h
      · exact ih p m hp hm (fun c hc => hf c (List.mem_cons_of_mem _ hc)) d h
    | some f =>
      have hfpos : 0 < f := hf (some f) (List.mem_cons_self _ _) f rfl
      have hqpos : 0 < p * f := mul_pos hp hfpos
      have hqM : p * f ≤ maxVal m (p * f) := by
        cases m with
        | none => simp [maxVal]
        | some a => simp [maxVal]
      have hMpos : 0 < maxVal m (p * f) := lt_of_lt_of_le hqpos hqM
      simp only [cumProdAux, cumMaxAux, colZip, List.zipWith_cons_cons, cellBin] at hd
      rcases List.mem_cons.mp hd with h | h
      · have hd' : d = p * f / maxVal m (p * f) - 1 := by
          injection h
        have hle : p * f / maxVal m (p * f) ≤ 1 :=
          div_le_one_of_le₀ hqM (le_of_lt hMpos)
        rw [hd']
        linarith
      · refine ih (p * f) (some (maxVal m (p * f))) hqpos ?_
          (fun c hc => hf c (List.mem_cons_of_mem _ hc)) d h
        intro a ha
        injection ha with ha'
        rw [← ha']
        exact hMpos

theorem foldl_maxStep_nonpos :
    ∀ (l : List ℚ) (acc : Option ℚ), (∀ x ∈ l, x ≤ 0) → (∀ a, acc = some a → a ≤ 0) →
      ∀ v, l.foldl maxStep acc = some v → v ≤ 0 := by
  intro l
  induction l with
  | nil =>
    intro acc _ hacc v hv
    exact hacc v hv
  | cons x t ih =>
    intro acc hl hacc v hv
    have hx : x ≤ 0 := hl x (List.mem_cons_self _ _)
    refine ih (maxStep acc x) (fun y hy => hl y (List.mem_cons_of_mem _ hy)) ?_ v hv
    intro a ha
    cases acc with
    | none =>
      simp only [maxStep] at ha
      injection ha with ha'
      rw [← ha']
      exact hx
    | some b =>
      have hb : b ≤ 0 := hacc b rfl
      simp only [maxStep] at ha
      injection ha with ha'
      rw [← ha']
      exact max_le hb hx

theorem colMax_nonpos (xs : Col) (h : ∀ d : ℚ, some d ∈ xs → d ≤ 0) :
    ∀ v, colMax xs = some v → v ≤ 0 := by
  refine foldl_maxStep_nonpos _ none ?_ ?_
  · intro x hx
    rcases List.mem_filterMap.mp hx with ⟨a, ha, hax⟩
    exact h x (by rwa [show id a = a from rfl] at hax ▸ ha)
  · intro a ha
    cases ha

/-- C4 (amended): `max_drawdown` returns the polars `max()` of the per-row
drawdown series, and when every defined return exceeds `-1` (as returns
derived from positive prices do) the returned scalar, when defined, is `≤ 0`. -/
theorem max_drawdown_nonpos (sr : Frame) (rs : Col)
    (hrs : lookupCol "return" sr.floatCols = some rs)
    (hgt : ∀ cell ∈ rs, ∀ r : ℚ, cell = some r → -1 < r) :
    max_drawdown sr = .ok (colMax (drawdownSeries rs)) ∧
    (∀ v : ℚ, colMax (drawdownSeries rs) = some v → v ≤ 0) := by
  constructor
  · unfold max_drawdown cumulative_returns
    rw [hrs]
    rfl
  · intro v hv
    refine colMax_nonpos _ ?_ v hv
    intro d hd
    refine drawdown_cells_nonpos (colMap (fun r => 1 + r) rs) 1 none one_pos
      (by intro a ha; cases ha) ?_ d
      (by simpa [drawdownSeries, cum_prod, cum_max] using hd)
    intro cell hcell f hf
    rcases List.mem_map.mp hcell with ⟨cell0, hcell0, rfl⟩
    cases cell0 with
    | none => cases hf
    | some r =>
      have hr : -1 < r := hgt (some r) hcell0 r rfl
      have hfr : f = 1 + r := by
        injection hf with hf'
        exact hf'.symm
      rw [hfr]
      linarith

/-- Concrete return series (with a return below -1) for the C4 counterexample. -/
def srC4 : Frame := ⟨[d1, d2], [("return", [some (-2), some 1])]⟩

theorem max_drawdown_cex : max_drawdown srC4 = .ok (some 1) ∧ ¬ ((1 : ℚ) ≤ 0) := by
  refine ⟨?_, by norm_num⟩
  have hmax1 : max (-1 : ℚ) (-2) = -1 := by norm_num
  have hmax2 : max (0 : ℚ) 1 = 1 := by norm_num
  have hl1 : cumulative_returns srC4 = .ok ⟨[d1, d2],
      [("return", [some (-2), some 1]),
        ("cumulative_return", cum_prod (colMap (fun r => 1 + r) [some (-2), some 1]))]⟩ := by
    unfold cumulative_returns srC4
    rfl
  unfold max_drawdown
  rw [hl1]
  show Except.ok (colMax (colZip (fun c m => c / m - 1)
      (cum_prod (colMap (fun r => 1 + r) [some (-2), some 1]))
      (cum_max (cum_prod (colMap (fun r => 1 + r) [some (-2), some 1]))))) = .ok (some 1)
  norm_num [colMap, cum_prod, cumProdAux, cum_max, cumMaxAux, maxVal, colZip, cellBin,
    colMax, maxStep, List.filterMap_cons, List.foldl_cons, List.foldl_nil, hmax1, hmax2]

/-- Concrete return series with all defined returns above -1, for the C4 witness. -/
def srC4b : Frame := ⟨[d1, d2], [("return", [none, some (-1/2)])]⟩

theorem max_drawdown_nonpos_witness :
    lookupCol "return" srC4b.floatCols = some [none, some (-1/2)] ∧
    max_drawdown srC4b = .ok (colMax (drawdownSeries [none, some (-1/2)])) ∧
    (∀ v : ℚ, colMax (drawdownSeries [none, some (-1/2)]) = some v → v ≤ 0) := by
  have hgt : ∀ cell ∈ ([none, some (-1/2)] : Col), ∀ r : ℚ, cell = some r → -1 < r := by
    intro cell hcell r hr
    rcases List.mem_cons.mp hcell with h | h
    · rw [h] at hr
      cases hr
    · rcases List.mem_cons.mp h with h2 | h2
      · rw [h2] at hr
        injection hr with hr'
        rw [← hr']
        norm_num
      · simp at h2
  exact ⟨rfl, (max_drawdown_nonpos srC4b [none, some (-1/2)] rfl hgt).1,
    (max_drawdown_nonpos srC4b [none, some (-1/2)] rfl hgt).2⟩

theorem zipWith_replicate_self (f : ℚ → ℚ → ℚ) (a : ℚ) :
    ∀ k, List.zipWith f (List.replicate k a) (a :: List.replicate k a)
      = List.replicate k (f a a) := by
  intro k
  induction k with
  | zero => rfl
  | succ j ih => simp only [List.replicate_succ, List.zipWith_cons_cons, ih]

theorem specReturns_replicate (c : ℚ) (hc : c ≠ 0) (m : ℕ) :
    specReturns (List.replicate (m + 1) c) = List.replicate m 0 := by
  unfold specReturns
  rw [List.replicate_succ, List.tail_cons]
  rw [zipWith_replicate_self]
  rw [div_self hc]
  norm_num

theorem cumProdAux_replicate_one : ∀ (k : ℕ) (acc : ℚ),
    cumProdAux acc (List.replicate k (some 1)) = List.replicate k (some acc) := by
  intro k
  induction k with
  | zero => intro acc; rfl
  | succ j ih =>
    intro acc
    simp only [List.replicate_succ, cumProdAux, mul_one, ih]

theorem cumMaxAux_replicate_one : ∀ (k : ℕ),
    cumMaxAux (some 1) (List.replicate k (some 1)) = List.replicate k (some 1) := by
  intro k
  induction k with
  | zero => rfl
  | succ j ih => simp only [List.replicate_succ, cumMaxAux, maxVal, max_self, ih]

theorem cum_max_one_replicate (k : ℕ) :
    cum_max (none :: List.replicate (k + 1) (some 1))
      = none :: List.replicate (k + 1) (some 1) := by
  unfold cum_max
  rw [show cumMaxAux none (none :: List.replicate (k + 1) (some 1))
      = none :: cumMaxAux none (List.replicate (k + 1) (some 1)) from rfl]
  rw [List.replicate_succ]
  rw [show cumMaxAux none (some 1 :: List.replicate k (some 1))
      = some 1 :: cumMaxAux (some 1) (List.replicate k (some 1)) from rfl]
  rw [cumMaxAux_replicate_one]

theorem zipWith_cellBin_replicate (g : ℚ → ℚ → ℚ) (x y : ℚ) (k : ℕ) :
    colZip g (List.replicate k (some x)) (List.replicate k (some y))
      = List.replicate k (some (g x y)) := by
  induction k with
  | zero => rfl
  | succ j ih =>
    simp only [List.replicate_succ, colZip, List.zipWith_cons_cons, cellBin] at ih ⊢
    rw [ih]

theorem filterMap_id_replicate (q : ℚ) (k : ℕ) :
    ((List.replicate k (some q) : Col).filterMap id : List ℚ) = List.replicate k q := by
  induction k with
  | zero => rfl
  | succ j ih => simp [List.replicate_succ, List.filterMap_cons, ih]

theorem foldl_maxStep_zero : ∀ (k : ℕ),
    List.foldl maxStep (some 0) (List.replicate k (0 : ℚ)) = some 0 := by
  intro k
  induction k with
  | zero => rfl
  | succ j ih =>
    simp only [List.replicate_succ, List.foldl_cons, maxStep, max_self]
    exact ih

theorem colMax_zero_replicate (k : ℕ) :
    colMax (none :: List.replicate (k + 1) (some (0 : ℚ))) = some 0 := by
  unfold colMax
  have hfm : (((none :: List.replicate (k + 1) (some (0 : ℚ))) : Col).filterMap id : List ℚ)
      = List.replicate (k + 1) 0 := by
    simp [List.filterMap_cons, filterMap_id_replicate]
  rw [hfm, List.replicate_succ, List.foldl_cons]
  rw [show maxStep none (0 : ℚ) = some 0 from rfl]
  exact foldl_maxStep_zero k

/-- Behaviour of the pipeline on a constant price series: zero returns after
the first null row, all-one (growth factor) cumulative returns after the
first null row, and zero max drawdown. -/
def ConstantSeriesOk (n : ℕ) (c : ℚ) (dates : List Date) : Prop :=
  ∃ sr cr, simple_returns (mkPriceFrame dates (List.replicate n c)) = .ok sr ∧
    lookupCol "return" sr.floatCols = some (none :: List.replicate (n - 1) (some 0)) ∧
    cumulative_returns sr = .ok cr ∧
    lookupCol "cumulative_return" cr.floatCols
      = some (none :: List.replicate (n - 1) (some 1)) ∧
    max_drawdown sr = .ok (some 0)

/-- C9 (amended): on a constant positive price series of length at least 2,
`simple_returns` is all-zero after the first (null) row, the
`cumulative_return` column is all-one (not all-zero: it holds the running
growth factor `(1+r)` product) after the first (null) row, and
`max_drawdown` returns 0. -/
theorem constant_series_spec (n : ℕ) (c : ℚ) (dates : List Date)
    (hc : 0 < c) (hn : 2 ≤ n) : ConstantSeriesOk n c dates := by
  obtain ⟨m, rfl⟩ : ∃ m, n = m + 2 := ⟨n - 2, by omega⟩
  have hcne : c ≠ 0 := ne_of_gt hc
  have hret : returnCol ((List.replicate (m + 2) c).map some)
      = none :: List.replicate (m + 1) (some 0) := by
    rw [show List.replicate (m + 2) c = c :: List.replicate (m + 1) c from rfl]
    rw [returnCol_cons]
    rw [show (c :: List.replicate (m + 1) c) = List.replicate (m + 2) c from rfl]
    rw [specReturns_replicate c hcne (m + 1)]
    simp [List.map_replicate]
  have hsr : simple_returns (mkPriceFrame dates (List.replicate (m + 2) c))
      = .ok ⟨dates, [("close", (List.replicate (m + 2) c).map some),
          ("return", none :: List.replicate (m + 1) (some 0))]⟩ := by
    rw [show simple_returns (mkPriceFrame dates (List.replicate (m + 2) c))
        = .ok ⟨dates, [("close", (List.replicate (m + 2) c).map some),
            ("return", returnCol ((List.replicate (m + 2) c).map some))]⟩ from rfl]
    rw [hret]
  have hcum : cum_prod (colMap (fun r => 1 + r) (none :: List.replicate (m + 1) (some 0)))
      = none :: List.replicate (m + 1) (some 1) := by
    have h1 : colMap (fun r => 1 + r) (none :: List.replicate (m + 1) (some 0))
        = none :: List.replicate (m + 1) (some 1) := by
      simp [colMap, List.map_replicate]
    rw [h1]
    unfold cum_prod
    rw [show cumProdAux 1 (none :: List.replicate (m + 1) (some 1))
        = none :: cumProdAux 1 (List.replicate (m + 1) (some 1)) from rfl]
    rw [cumProdAux_replicate_one]
  have hcr : cumulative_returns ⟨dates, [("close", (List.replicate (m + 2) c).map some),
      ("return", none :: List.replicate (m + 1) (some 0))]⟩
      = .ok ⟨dates, [("return", none :: List.replicate (m + 1) (some 0)),
          ("cumulative_return", none :: List.replicate (m + 1) (some 1))]⟩ := by
    rw [show cumulative_returns ⟨dates, [("close", (List.replicate (m + 2) c).map some),
        ("return", none :: List.replicate (m + 1) (some 0))]⟩
        = .ok ⟨dates, [("return", none :: List.replicate (m + 1) (some 0)),
            ("cumulative_return", cum_prod (colMap (fun r => 1 + r)
              (none :: List.replicate (m + 1) (some 0))))]⟩ from rfl]
    rw [hcum]
  have hdd : colZip (fun c m => c / m - 1) (none :: List.replicate (m + 1) (some 1))
      (cum_max (none :: List.replicate (m + 1) (some 1)))
      = none :: List.replicate (m + 1) (some 0) := by
    rw [cum_max_one_replicate]
    rw [show colZip (fun c m => c / m - 1) (none :: List.replicate (m + 1) (some 1))
        (none :: List.replicate (m + 1) (some 1))
        = none :: colZip (fun c m => c / m - 1) (List.replicate (m + 1) (some 1))
          (List.replicate (m + 1) (some 1)) from rfl]
    rw [zipWith_cellBin_replicate]
    norm_num
  have hmd : max_drawdown ⟨dates, [("close", (List.replicate (m + 2) c).map some),
      ("return", none :: List.replicate (m + 1) (some 0))]⟩ = .ok (some 0) := by
    unfold max_drawdown
    rw [hcr]
    show Except.ok (colMax (colZip (fun c m => c / m - 1)
        (none :: List.replicate (m + 1) (some 1))
        (cum_max (none :: List.replicate (m + 1) (some 1))))) = .ok (some 0)
    rw [hdd, colMax_zero_replicate]
  exact ⟨_, _, hsr, rfl, hcr, rfl, hmd⟩

/-- C9 counterexample data: a two-row constant price series, and a one-row
constant price series. -/
def dfC9 : Frame := mkPriceFrame [d1, d2] [1, 1]

theorem constant_series_cex :
    ((simple_returns (mkPriceFrame [d1, d2] [1, 1])).bind cumulative_returns
      = .ok ⟨[d1, d2], [("return", [none, some 0]), ("cumulative_return", [none, some 1])]⟩
      ∧ (1 : ℚ) ≠ 0) ∧
    (simple_returns (mkPriceFrame [d1] [1])).bind max_drawdown = .ok none := by
  refine ⟨⟨?_, by norm_num⟩, ?_⟩
  · have h1 : simple_returns (mkPriceFrame [d1, d2] [1, 1])
        = .ok ⟨[d1, d2], [("close", [some 1, some 1]),
            ("return", returnCol [some 1, some 1])]⟩ := rfl
    have h2 : returnCol [some 1, some 1] = [none, some 0] := by
      norm_num [returnCol, shift1, List.dropLast, colZip, cellBin, colMap]
    rw [h1, h2]
    rw [show ((Except.ok (⟨[d1, d2], [("close", [some 1, some 1]),
        ("return", [none, some 0])]⟩ : Frame) : Except MetricsError Frame).bind
          cumulative_returns)
        = cumulative_returns ⟨[d1, d2], [("close", [some 1, some 1]),
            ("return", [none, some 0])]⟩ from rfl]
    rw [show cumulative_returns ⟨[d1, d2], [("close", [some 1, some 1]),
        ("return", [none, some 0])]⟩
        = .ok ⟨[d1, d2], [("return", [none, some 0]),
            ("cumulative_return", cum_prod (colMap (fun r => 1 + r) [none, some 0]))]⟩
        from rfl]
    have h3 : cum_prod (colMap (fun r => 1 + r) [none, some 0]) = [none, some 1] := by
      norm_num [colMap, cum_prod, cumProdAux]
    rw [h3]
  · rfl

theorem constant_series_spec_witness :
    (0 : ℚ) < 2 ∧ 2 ≤ 3 ∧ ConstantSeriesOk 3 2 [d1, d2, d3] :=
  ⟨by norm_num, by norm_num,
    constant_series_spec 3 2 [d1, d2, d3] (by norm_num) (by norm_num)⟩

/-- Sample variance (the square of polars `std`, ddof = 1): null when fewer
than two non-null values are present, as in polars. -/
def sampleVar (l : List ℚ) : Option ℚ :=
  if l.length < 2 then none
  else some ((l.map (fun x => (x - l.sum / (l.length : ℚ)) ^ 2)).sum / ((l.length : ℚ) - 1))

/-- `Metrics.annual_volatility`: the standard deviation of the `return`
column times `sqrt(annualization_faactor)`.  When polars `std` gives null
(fewer than two non-null returns), the python code multiplies `None` by a
float and raises `TypeError`, modelled as `nullArithmetic`. -/
noncomputable def annual_volatility (sr : Frame) (p : AggregationType) :
    Except MetricsError ℝ :=
  match lookupCol "return" sr.floatCols with
  | none => .error (.columnNotFound "return")
  | some rs =>
    match sampleVar (rs.filterMap id) with
    | none => .error .nullArithmetic
    | some v =>
      .ok (Real.sqrt ((v : ℚ) : ℝ) * Real.sqrt ((annualization_faactor p : ℚ) : ℝ))

/-- `Metrics.omega_ratio`: the sum of `(return - risk_free_rate)` over the
rows where `return < risk_free_rate`, divided by the annualization factor,
divided by the annual volatility.  When the annual volatility is exactly 0
(all defined returns equal), the final pure-python float division raises
`ZeroDivisionError`, modelled as `undefinedResult`. -/
noncomputable def omega_ratio (sr : Frame) (risk_free_rate : ℚ) (p : AggregationType) :
    Except MetricsError ℝ :=
  match lookupCol "return" sr.floatCols with
  | none => .error (.columnNotFound "return")
  | some rs =>
    (annual_volatility sr p).bind (fun vol =>
      if vol = 0 then .error .undefinedResult
      else .ok ((((colSum (colFilter (colMap (fun r => r - risk_free_rate) rs)
          (colLtMask rs risk_free_rate)) : ℚ) : ℝ)
        / ((annualization_faactor p : ℚ) : ℝ)) / vol))

/-- `Metrics.sharpe_ratio`: sums `(pl.col("simple_return") - risk_free_rate)`
over all rows — note the column name `simple_return`, which `simple_returns`
never produces — then divides by the annualization factor and the annual
volatility (a zero volatility would raise `ZeroDivisionError`, modelled as
`undefinedResult`, but the column lookup fails first). -/
noncomputable def sharpe_ratio (sr : Frame) (risk_free_rate : ℚ) (p : AggregationType) :
    Except MetricsError ℝ :=
  match lookupCol "simple_return" sr.floatCols with
  | none => .error (.columnNotFound "simple_return")
  | some rs =>
    (annual_volatility sr p).bind (fun vol =>
      if vol = 0 then .error .undefinedResult
      else .ok ((((colSum (colMap (fun r => r - risk_free_rate) rs) : ℚ) : ℝ)
        / ((annualization_faactor p : ℚ) : ℝ)) / vol))

/-- `DataFrame.count().item()`: `count()` yields one row with one column per
frame column (the `date` column included); `.item()` demands a 1-by-1
frame and raises a shape error otherwise. -/
def df_count_item (df : Frame) : Except MetricsError ℚ :=
  if df.floatCols.length = 0 then .ok ((df.dates.length : ℚ))
  else .error .shapeError

/-- `Metrics.compound_annual_growth_rate`: `num_years` comes from
`simple_returns.count().item() / annualization_faactor`, `ending_value`
from `cumulative_return_final(cumulative_returns(...))`, and the result is
`ending_value ** (1 / num_years) - 1`. -/
noncomputable def compound_annual_growth_rate (sr : Frame) (p : AggregationType) :
    Except MetricsError ℝ :=
  (df_count_item sr).bind fun cnt =>
    (cumulative_returns sr).bind fun cr =>
      (cumulative_return_final cr).map fun ev =>
        Real.rpow (ev : ℝ) (1 / (((cnt / annualization_faactor p : ℚ)) : ℝ)) - 1

/-- C5: `compound_annual_growth_rate` never returns a value on a frame
produced by `simple_returns`: `count().item()` is applied to a multi-column
frame, which cannot yield a scalar (and `cumulative_return_final` would
raise anyway). -/
theorem cagr_raises (dates : List Date) (closes : List ℚ) (p : AggregationType) (sr : Frame)
    (hsr : simple_returns (mkPriceFrame dates closes) = .ok sr) :
    compound_annual_growth_rate sr p = .error .shapeError := by
  have h0 : simple_returns (mkPriceFrame dates closes)
      = .ok ⟨dates, [("close", closes.map some),
          ("return", returnCol (closes.map some))]⟩ := rfl
  rw [h0] at hsr
  injection hsr with h
  rw [← h]
  rfl

theorem cagr_raises_witness :
    simple_returns (mkPriceFrame [d1, d2] [100, 110]) = .ok ⟨[d1, d2],
      [("close", ([100, 110] : List ℚ).map some),
        ("return", returnCol (([100, 110] : List ℚ).map some))]⟩ ∧
    compound_annual_growth_rate ⟨[d1, d2],
      [("close", ([100, 110] : List ℚ).map some),
        ("return", returnCol (([100, 110] : List ℚ).map some))]⟩ .DAY
      = .error .shapeError :=
  ⟨rfl, cagr_raises [d1, d2] [100, 110] .DAY _ rfl⟩

/-- C6: on any frame produced by `simple_returns` (whose columns are `date`,
the input `Float64` columns, and `return`), `sharpe_ratio` raises
`ColumnNotFoundError` because it selects the non-existent column
`simple_return`. -/
theorem sharpe_ratio_missing_column (dates : List Date) (closes : List ℚ) (rfr : ℚ)
    (p : AggregationType) (sr : Frame)
    (hsr : simple_returns (mkPriceFrame dates closes) = .ok sr) :
    sharpe_ratio sr rfr p = .error (.columnNotFound "simple_return") := by
  have h0 : simple_returns (mkPriceFrame dates closes)
      = .ok ⟨dates, [("close", closes.map some),
          ("return", returnCol (closes.map some))]⟩ := rfl
  rw [h0] at hsr
  injection hsr with h
  rw [← h]
  rfl

theorem sharpe_ratio_missing_column_witness :
    simple_returns (mkPriceFrame [d1, d2, d3] [100, 110, 121]) = .ok ⟨[d1, d2, d3],
      [("close", ([100, 110, 121] : List ℚ).map some),
        ("return", returnCol (([100, 110, 121] : List ℚ).map some))]⟩ ∧
    sharpe_ratio ⟨[d1, d2, d3],
      [("close", ([100, 110, 121] : List ℚ).map some),
        ("return", returnCol (([100, 110, 121] : List ℚ).map some))]⟩ 0 .DAY
      = .error (.columnNotFound "simple_return") :=
  ⟨rfl, sharpe_ratio_missing_column [d1, d2, d3] [100, 110, 121] 0 .DAY _ rfl⟩

theorem colFilter_cons_true (x : Cell) (xs : Col) (ms : List (Option Bool)) :
    colFilter (x :: xs) (some true :: ms) = x :: colFilter xs ms := rfl

theorem colFilter_cons_false (x : Cell) (xs : Col) (ms : List (Option Bool)) :
    colFilter (x :: xs) (some false :: ms) = colFilter xs ms := rfl

theorem colFilter_cons_null (x : Cell) (xs : Col) (ms : List (Option Bool)) :
    colFilter (x :: xs) (none :: ms) = colFilter xs ms := rfl

theorem colSum_cons_some (x : ℚ) (l : Col) : colSum (some x :: l) = x + colSum l := by
  simp [colSum]

theorem colSum_cons_none (l : Col) : colSum ((none : Cell) :: l) = colSum l := by
  simp [colSum]

theorem filterMap_id_cons_some (x : ℚ) (l : Col) :
    ((some x :: l : Col).filterMap id : List ℚ) = x :: l.filterMap id := by
  simp

theorem filterMap_id_cons_none (l : Col) :
    (((none : Cell) :: l : Col).filterMap id : List ℚ) = l.filterMap id := by
  simp

theorem colSum_filter_lt (rs : Col) (q : ℚ) :
    colSum (colFilter (colMap (fun r => r - q) rs) (colLtMask rs q))
      = (((rs.filterMap id).filter (fun r => decide (r < q))).map (fun r => r - q)).sum := by
  induction rs with
  | nil => rfl
  | cons cell t ih =>
    cases cell with
    | none =>
      rw [show colMap (fun r => r - q) (none :: t) = none :: colMap (fun r => r - q) t
        from rfl]
      rw [show colLtMask (none :: t) q = none :: colLtMask t q from rfl]
      rw [colFilter_cons_null, filterMap_id_cons_none]
      exact ih
    | some r =>
      rw [show colMap (fun r => r - q) (some r :: t)
        = some (r - q) :: colMap (fun r => r - q) t from rfl]
      rw [show colLtMask (some r :: t) q
        = some (decide (r < q)) :: colLtMask t q from rfl]
      rw [filterMap_id_cons_some, List.filter_cons]
      by_cases hq : r < q
      · have hdec : decide (r < q) = true := decide_eq_true hq
        rw [hdec, colFilter_cons_true, colSum_cons_some, ih]
        simp
      · have hdec : decide (r < q) = false := decide_eq_false hq
        rw [hdec, colFilter_cons_false, ih]
        simp

/-- C8: on a return series produced by `simple_returns`, whenever the annual
volatility is defined and nonzero (a zero volatility makes the python
division raise `ZeroDivisionError`), `omega_ratio` returns the sum of
`(return - risk_free_rate)` over the rows with `return < risk_free_rate`,
divided by the annualization factor, divided by the annual volatility. -/
theorem omega_ratio_spec (dates : List Date) (closes : List ℚ) (rfr : ℚ)
    (p : AggregationType) (sr : Frame)
    (hsr : simple_returns (mkPriceFrame dates closes) = .ok sr)
    (v : ℝ) (hv : annual_volatility sr p = .ok v) (hv0 : v ≠ 0) :
    omega_ratio sr rfr p = .ok
      ((((((specReturns closes).filter (fun r => decide (r < rfr))).map
          (fun r => r - rfr)).sum : ℚ) : ℝ)
        / ((annualization_faactor p : ℚ) : ℝ) / v) := by
  have h0 : simple_returns (mkPriceFrame dates closes)
      = .ok ⟨dates, [("close", closes.map some),
          ("return", returnCol (closes.map some))]⟩ := rfl
  rw [h0] at hsr
  injection hsr with h
  subst h
  unfold omega_ratio
  rw [show lookupCol "return" (Frame.mk dates [("close", closes.map some),
      ("return", returnCol (closes.map some))]).floatCols
      = some (returnCol (closes.map some)) from rfl]
  rw [hv]
  simp only [Except.bind]
  rw [if_neg hv0]
  refine congrArg Except.ok ?_
  rw [colSum_filter_lt, returnCol_filterMap]

/-- Concrete `simple_returns` output frame for the C8 witness. -/
def srC8 : Frame :=
  ⟨[d1, d2, d3], [("close", ([1, 2, 1] : List ℚ).map some),
    ("return", returnCol (([1, 2, 1] : List ℚ).map some))]⟩

/-- The annual volatility of the C8 witness frame. -/
noncomputable def volC8 : ℝ := Real.sqrt ((9/8 : ℚ) : ℝ) * Real.sqrt ((252 : ℚ) : ℝ)

theorem annual_volatility_eq {sr : Frame} {p : AggregationType} {rs : Col} {vq : ℚ}
    (hrs : lookupCol "return" sr.floatCols = some rs)
    (hvar : sampleVar (rs.filterMap id) = some vq) :
    annual_volatility sr p
      = .ok (Real.sqrt ((vq : ℚ) : ℝ)
          * Real.sqrt ((annualization_faactor p : ℚ) : ℝ)) := by
  unfold annual_volatility
  rw [hrs]
  show (match sampleVar (rs.filterMap id) with
    | none => Except.error MetricsError.nullArithmetic
    | some v => Except.ok (Real.sqrt ((v : ℚ) : ℝ)
        * Real.sqrt ((annualization_faactor p : ℚ) : ℝ))) = _
  rw [hvar]

theorem annual_volatility_C8 : annual_volatility srC8 .DAY = .ok volC8 := by
  have e2 : (((returnCol (([1, 2, 1] : List ℚ).map some)) : Col).filterMap id : List ℚ)
      = [1, -1/2] := by
    rw [returnCol_filterMap]
    norm_num [specReturns, List.zipWith_cons_cons]
  have e4 : sampleVar ((returnCol (([1, 2, 1] : List ℚ).map some)).filterMap id)
      = some (9/8) := by
    rw [e2]
    norm_num [sampleVar, List.sum_cons, List.sum_nil, List.map_cons, List.map_nil,
      List.length_cons, List.length_nil]
  exact annual_volatility_eq rfl e4

theorem volC8_ne_zero : volC8 ≠ 0 := by
  have h1 : (0 : ℝ) < Real.sqrt ((9/8 : ℚ) : ℝ) :=
    Real.sqrt_pos.mpr (by exact_mod_cast (by norm_num : (0 : ℚ) < 9/8))
  have h2 : (0 : ℝ) < Real.sqrt ((252 : ℚ) : ℝ) :=
    Real.sqrt_pos.mpr (by exact_mod_cast (by norm_num : (0 : ℚ) < 252))
  exact ne_of_gt (mul_pos h1 h2)

theorem omega_ratio_spec_witness :
    simple_returns (mkPriceFrame [d1, d2, d3] [1, 2, 1]) = .ok srC8 ∧
    annual_volatility srC8 .DAY = .ok volC8 ∧
    volC8 ≠ 0 ∧
    omega_ratio srC8 0 .DAY = .ok
      ((((((specReturns [1, 2, 1]).filter (fun r => decide (r < 0))).map
          (fun r => r - 0)).sum : ℚ) : ℝ)
        / ((annualization_faactor .DAY : ℚ) : ℝ) / volC8) :=
  ⟨rfl, annual_volatility_C8, volC8_ne_zero,
    omega_ratio_spec [d1, d2, d3] [1, 2, 1] 0 .DAY srC8 rfl volC8 annual_volatility_C8
      volC8_ne_zero⟩

end PolarsStats
